import Mathlib

/-!
Shallow embedding of the buffer allocator in src/lib.rs of the
omnivers3/buffer crate, together with theorems checking the written
specification against it.

The target is a 64 bit platform: usize is a natural number below 2 ^ 64,
with overflow made explicit exactly where the source checks it. Heap
memory is a list of bytes; Global.alloc_zeroed is modelled as returning a
fresh zero filled region of the requested size (allocator exhaustion is an
environment failure outside the model, so the InsufficientMemory path is
not reachable here). A Rust type T enters the model through its size and
alignment only; a value of T enters through its byte representation.
-/

/-- CACHE_LINE_SIZE (src/lib.rs line 13). -/
def CACHE_LINE_SIZE : Nat := 64

/-- mem::size_of::<usize>() on the modelled 64 bit target, as read by
alloc_guard (src/lib.rs line 183). -/
def USIZE_BYTES : Nat := 8

/-- One past the maximum usize value: usize arithmetic overflows at 2 ^ 64. -/
def USIZE_BOUND : Nat := 2 ^ 64

/-- isize::MAX on the modelled target, as read by alloc_guard. -/
def ISIZE_MAX : Nat := 2 ^ 63 - 1

/-- The error enum Errors (src/lib.rs lines 21-28). -/
inductive Errors where
  | BufferSizeOverflow
  | AllocCapacityOverflow
  | InvalidLayout
  | InsufficientMemory
  | ZeroBufferNotSupported
  deriving DecidableEq, Repr

/-- A Rust type T, modelled by mem::size_of::<T>() and mem::align_of::<T>(). -/
structure TypeDesc where
  size : Nat
  align : Nat
  deriving DecidableEq, Repr

/-- Facts the Rust compiler guarantees for every type: the alignment is a
power of two representable in usize, and the size is a multiple of the
alignment. -/
def TypeDesc.wf (T : TypeDesc) : Prop :=
  (∃ k, k ≤ 63 ∧ T.align = 2 ^ k) ∧ T.align ∣ T.size

/-- The Padding enum (src/lib.rs lines 81-85). -/
inductive Padding where
  | none
  | padded (padded_size : Nat)
  | cacheAligned
  deriving DecidableEq, Repr

/-- The Buffer struct (src/lib.rs lines 30-37). The allocation behind the
raw field ptr is modelled by the byte list mem; each entry pointer
ptr.add(i * padded_size) stored in entries is modelled by its byte offset
from ptr. -/
structure Buffer where
  mem : List Nat
  cap : Nat
  size : Nat
  padded_size : Nat
  entries : List Nat
  deriving DecidableEq, Repr

/-- usize::checked_mul: the product, or none exactly when it overflows. -/
def checked_mul (a b : Nat) : Option Nat :=
  if a * b < USIZE_BOUND then some (a * b) else none

/-- alloc_guard (src/lib.rs lines 182-188): on targets narrower than 64
bits it rejects sizes above isize::MAX with AllocCapacityOverflow; on the
modelled 64 bit target the guard always passes. -/
def alloc_guard (alloc_size : Nat) : Except Errors Nat :=
  if USIZE_BYTES < 8 ∧ ISIZE_MAX < alloc_size then
    Except.error Errors.AllocCapacityOverflow
  else
    Except.ok alloc_size

/-- usize::is_power_of_two, as used by Layout::from_size_align. -/
def is_power_of_two (n : Nat) : Bool :=
  n != 0 && (n &&& (n - 1) == 0)

/-- Layout::from_size_align(size, align): errors unless align is a power
of two and size, rounded up to the nearest multiple of align, still fits
in usize. buffer_from maps the layout error to Errors.InvalidLayout, so
that error value is produced directly here. -/
def layout_from_size_align (size align : Nat) : Except Errors Unit :=
  if !is_power_of_two align then Except.error Errors.InvalidLayout
  else if USIZE_BOUND - 1 - (align - 1) < size then Except.error Errors.InvalidLayout
  else Except.ok ()

/-- zero_buffer (src/lib.rs lines 39-43): a zero sized configuration is
rejected rather than given a dangling allocation. -/
def zero_buffer : Except Errors Buffer :=
  Except.error Errors.ZeroBufferNotSupported

/-- buffer_from (src/lib.rs lines 45-79): build the layout from
(alloc_size, align_of::<T>()), obtain zero initialized memory, and record
one entry pointer at byte offset i * padded_size for each slot i. -/
def buffer_from (align cap size padded_size alloc_size : Nat) : Except Errors Buffer :=
  match layout_from_size_align alloc_size align with
  | Except.error e => Except.error e
  | Except.ok _ =>
      Except.ok
        { mem := List.replicate alloc_size 0
          cap := cap
          size := size
          padded_size := padded_size
          entries := (List.range cap).map (fun i => i * padded_size) }

/-- The padding resolution match inside new (src/lib.rs lines 89-103). -/
def resolve_padding (size : Nat) (padding : Padding) : Nat :=
  match padding with
  | Padding.none => size
  | Padding.padded padded_size =>
      let padded_size := max padded_size size
      let padded_size := max padded_size 1
      padded_size
  | Padding.cacheAligned =>
      if size % CACHE_LINE_SIZE == 0 then
        size
      else
        (size / CACHE_LINE_SIZE + 1) * CACHE_LINE_SIZE

/-- new (src/lib.rs lines 87-117): resolve the stride, multiply capacity
by stride with overflow detection, run alloc_guard, reject a zero total
size, otherwise allocate. -/
def new (T : TypeDesc) (cap : Nat) (padding : Padding) : Except Errors Buffer :=
  let size := T.size
  let padded_size := resolve_padding size padding
  match checked_mul cap padded_size with
  | Option.none => Except.error Errors.BufferSizeOverflow
  | Option.some n =>
      match alloc_guard n with
      | Except.error e => Except.error e
      | Except.ok alloc_size =>
          if alloc_size == 0 then zero_buffer
          else buffer_from T.align cap size padded_size alloc_size

/-- Alias for the free function new: inside the Buffer namespace the bare
identifier new would resolve to Buffer.new instead. -/
def newUnqualified : TypeDesc → Nat → Padding → Except Errors Buffer := new

/-- Buffer::new (src/lib.rs lines 120-122). -/
def Buffer.new (T : TypeDesc) (cap : Nat) : Except Errors Buffer :=
  newUnqualified T cap Padding.none

/-- Buffer::padded (src/lib.rs lines 124-126). -/
def Buffer.padded (T : TypeDesc) (cap padded_size : Nat) : Except Errors Buffer :=
  newUnqualified T cap (Padding.padded padded_size)

/-- Buffer::cache_aligned (src/lib.rs lines 128-130). -/
def Buffer.cache_aligned (T : TypeDesc) (cap : Nat) : Except Errors Buffer :=
  newUnqualified T cap Padding.cacheAligned

/-- Buffer::data_size (src/lib.rs lines 144-146): the unchecked usize
product cap * padded_size, which wraps at 2 ^ 64. -/
def Buffer.data_size (b : Buffer) : Nat :=
  b.cap * b.padded_size % USIZE_BOUND

/-- Buffer::buffers (src/lib.rs lines 152-162): for each slot i, the
size bytes of the allocation starting at offset i * padded_size. -/
def Buffer.buffers (b : Buffer) : List (List Nat) :=
  (List.range b.cap).map (fun i => (b.mem.drop (i * b.padded_size)).take b.size)

/-- Buffer::data (src/lib.rs lines 164-170): the data_size bytes starting
at the base of the allocation. -/
def Buffer.data (b : Buffer) : List Nat :=
  b.mem.take b.data_size

/-- Overwrite the bytes of mem at offsets off, off + 1, ... with bs: a
memcpy of bs.length bytes to offset off. -/
def writeBytes (mem : List Nat) (off : Nat) (bs : List Nat) : List Nat :=
  mem.take off ++ bs ++ mem.drop (off + bs.length)

/-- Effect on the backing memory of the Rust assignment
*buf.entries[i] = v, where bs is the byte representation of v, of length
mem::size_of::<T>(): the bytes are stored through the entry pointer held
in entries[i]. -/
def Buffer.writeEntry (b : Buffer) (i : Nat) (bs : List Nat) : Buffer :=
  { b with mem := writeBytes b.mem (b.entries.getD i 0) bs }

/-- An ownership event relevant to releasing the backing allocation: the
Buffer value itself being dropped, or one of the Vec values built with
Vec::from_raw_parts by Buffer::buffers or Buffer::data being dropped. -/
inductive DropEvent where
  | buffer
  | rawPartsVec
  deriving DecidableEq, Repr

/-- Deallocations of the backing region performed by one drop, read off
the source: the crate defines no Drop impl for Buffer (src/lib.rs lines
30-37 and 119-171), and dropping a struct holding a raw pointer plus a
Vec of references frees neither, so dropping the Buffer releases nothing;
a Vec built by Vec::from_raw_parts (src/lib.rs lines 156-158 and 166-168)
owns its buffer and deallocates it once when dropped. -/
def deallocsOf : DropEvent → Nat
  | DropEvent.buffer => 0
  | DropEvent.rawPartsVec => 1

/-- Total deallocations of one backing allocation over a whole program
run, given the drop events that reference it. -/
def totalDeallocs (events : List DropEvent) : Nat :=
  (events.map deallocsOf).sum

/-- The stride resolved by any policy is at least the element size. -/
theorem size_le_resolve (size : Nat) (padding : Padding) :
    size ≤ resolve_padding size padding := by
  cases padding with
  | none => exact Nat.le_refl _
  | padded ps =>
      exact Nat.le_trans (le_max_right ps size) (le_max_left _ 1)
  | cacheAligned =>
      simp only [resolve_padding]
      split
      · exact Nat.le_refl _
      · have h1 := Nat.div_add_mod size CACHE_LINE_SIZE
        have h2 : size % CACHE_LINE_SIZE < CACHE_LINE_SIZE :=
          Nat.mod_lt _ (by decide)
        simp only [CACHE_LINE_SIZE] at h1 h2 ⊢
        omega

/-- The power of two test accepts every power of two. -/
theorem is_power_of_two_pow (k : Nat) : is_power_of_two (2 ^ k) = true := by
  have h1 : (2 ^ k) &&& (2 ^ k - 1) = 2 ^ k % 2 ^ k :=
    Nat.and_pow_two_sub_one_eq_mod (2 ^ k) k
  have h2 : (2 : Nat) ^ k ≠ 0 := Nat.pos_iff_ne_zero.mp (Nat.pos_pow_of_pos k (by decide))
  simp [is_power_of_two, h1, h2, Nat.mod_self]

/-- Inversion of a successful construction: the exact fields of the
returned Buffer and the bounds established along the way. -/
theorem new_ok_inv (T : TypeDesc) (cap : Nat) (padding : Padding) (b : Buffer)
    (h : new T cap padding = Except.ok b) :
    b.cap = cap ∧ b.size = T.size ∧
    b.padded_size = resolve_padding T.size padding ∧
    b.mem = List.replicate (cap * resolve_padding T.size padding) 0 ∧
    b.entries = (List.range cap).map (fun i => i * resolve_padding T.size padding) ∧
    cap * resolve_padding T.size padding < USIZE_BOUND ∧
    0 < cap * resolve_padding T.size padding := by
  simp only [new] at h
  split at h
  case h_1 heq => simp at h
  case h_2 n heq =>
    have hn : n = cap * resolve_padding T.size padding ∧
        cap * resolve_padding T.size padding < USIZE_BOUND := by
      unfold checked_mul at heq
      split at heq
      · exact ⟨(Option.some.injEq _ _).mp heq.symm, by assumption⟩
      · simp at heq
    obtain ⟨hn1, hn2⟩ := hn
    split at h
    case h_1 e heq2 =>
      unfold alloc_guard at heq2
      split at heq2
      · rename_i hc
        simp [USIZE_BYTES] at hc
      · simp at heq2
    case h_2 alloc_size heq2 =>
      have ha : alloc_size = n := by
        unfold alloc_guard at heq2
        split at heq2
        · rename_i hc
          simp [USIZE_BYTES] at hc
        · exact ((Except.ok.injEq _ _).mp heq2).symm
      subst ha
      split at h
      case isTrue hz => simp [zero_buffer] at h
      case isFalse hz =>
        unfold buffer_from at h
        split at h
        case h_1 e heq3 => simp at h
        case h_2 u heq3 =>
          have hb := ((Except.ok.injEq _ _).mp h)
          subst hb
          refine ⟨rfl, rfl, rfl, ?_, ?_, hn2, ?_⟩
          · simp [hn1]
          · simp [hn1]
          · have hnz : alloc_size ≠ 0 := by simpa using hz
            rw [hn1] at hnz
            exact Nat.pos_of_ne_zero hnz

/-- Any construction whose resolved total size is zero takes the
zero_buffer branch of new and reports ZeroBufferNotSupported. -/
theorem zero_total_rejected (T : TypeDesc) (cap : Nat) (padding : Padding)
    (h : cap * resolve_padding T.size padding = 0) :
    new T cap padding = Except.error Errors.ZeroBufferNotSupported := by
  simp only [new, checked_mul]
  rw [h]
  rfl

/-- C4: the CacheAligned policy resolves the stride to the element size
when that size is an exact multiple of the cache line size 64, and
otherwise to the next multiple of 64 above it; in both cases the resolved
stride is a multiple of 64. -/
theorem c4_cache_aligned_stride (size : Nat) :
    resolve_padding size Padding.cacheAligned % CACHE_LINE_SIZE = 0 ∧
    (size % CACHE_LINE_SIZE = 0 → resolve_padding size Padding.cacheAligned = size) ∧
    (size % CACHE_LINE_SIZE ≠ 0 →
      size < resolve_padding size Padding.cacheAligned ∧
      resolve_padding size Padding.cacheAligned < size + CACHE_LINE_SIZE) := by
  simp only [resolve_padding, CACHE_LINE_SIZE]
  by_cases h : size % 64 = 0
  · refine ⟨by simp [h], fun _ => by simp [h], fun hc => absurd h hc⟩
  · rw [if_neg (by simpa using h)]
    refine ⟨Nat.mul_mod_left _ _, fun hc => absurd hc h, fun _ => ?_⟩
    have h1 := Nat.div_add_mod size 64
    have h2 : size % 64 < 64 := Nat.mod_lt _ (by decide)
    omega

/-- C4 witness at element size 17, whose resolved stride is the next
multiple of 64 above 17. -/
theorem c4_cache_aligned_stride_witness :
    resolve_padding 17 Padding.cacheAligned % CACHE_LINE_SIZE = 0 ∧
    17 < resolve_padding 17 Padding.cacheAligned ∧
    resolve_padding 17 Padding.cacheAligned < 17 + CACHE_LINE_SIZE :=
  ⟨(c4_cache_aligned_stride 17).1,
   ((c4_cache_aligned_stride 17).2.2 (by decide)).1,
   ((c4_cache_aligned_stride 17).2.2 (by decide)).2⟩

/-- C5 counterexample: with element size 0 the CacheAligned policy
resolves the stride to 0, so the resolved stride is not at least 1. -/
theorem c5_counterexample :
    resolve_padding 0 Padding.cacheAligned = 0 ∧
    ¬ 1 ≤ resolve_padding 0 Padding.cacheAligned := by
  decide

/-- C5 (amended): the Padded policy resolves to a stride of at least 1
for every element size; the CacheAligned policy does so only for element
sizes of at least 1, while element size 0 resolves to stride 0 under
CacheAligned, which the size guard then rejects with
ZeroBufferNotSupported just as under the None policy. -/
theorem c5_stride_floor (size requested : Nat) :
    1 ≤ resolve_padding size (Padding.padded requested) ∧
    (1 ≤ size → 1 ≤ resolve_padding size Padding.cacheAligned) ∧
    (∀ T : TypeDesc, T.size = 0 → ∀ cap : Nat,
      Buffer.cache_aligned T cap = Except.error Errors.ZeroBufferNotSupported) := by
  refine ⟨le_max_right _ 1, fun hs => ?_, fun T hT cap => ?_⟩
  · exact Nat.le_trans hs (size_le_resolve size Padding.cacheAligned)
  · exact zero_total_rejected T cap Padding.cacheAligned
      (by simp [resolve_padding, hT])

/-- C5 witness: both floors at concrete inputs, and the rejection of a
zero sized element under CacheAligned at capacity 5. -/
theorem c5_stride_floor_witness :
    1 ≤ resolve_padding 0 (Padding.padded 0) ∧
    1 ≤ resolve_padding 1 Padding.cacheAligned ∧
    Buffer.cache_aligned ⟨0, 1⟩ 5 = Except.error Errors.ZeroBufferNotSupported :=
  ⟨(c5_stride_floor 0 0).1,
   (c5_stride_floor 1 0).2.1 (by decide),
   (c5_stride_floor 0 0).2.2 ⟨0, 1⟩ rfl 5⟩

/-- C6: every construction whose resolved total size is zero fails with
ZeroBufferNotSupported; in particular capacity 0 under any policy, and a
zero sized element under the None policy. -/
theorem c6_zero_total (T : TypeDesc) (cap : Nat) (padding : Padding)
    (h : cap * resolve_padding T.size padding = 0) :
    new T cap padding = Except.error Errors.ZeroBufferNotSupported ∧
    Buffer.new T 0 = Except.error Errors.ZeroBufferNotSupported ∧
    (T.size = 0 → Buffer.new T cap = Except.error Errors.ZeroBufferNotSupported) := by
  refine ⟨zero_total_rejected T cap padding h, ?_, fun hsz => ?_⟩
  · exact zero_total_rejected T 0 Padding.none (by simp)
  · exact zero_total_rejected T cap Padding.none (by simp [resolve_padding, hsz])

/-- C6 witness: capacity 0 for a one byte element under the None policy. -/
theorem c6_zero_total_witness :
    new ⟨1, 1⟩ 0 Padding.none = Except.error Errors.ZeroBufferNotSupported ∧
    Buffer.new ⟨1, 1⟩ 0 = Except.error Errors.ZeroBufferNotSupported :=
  ⟨(c6_zero_total ⟨1, 1⟩ 0 Padding.none (by decide)).1,
   (c6_zero_total ⟨1, 1⟩ 0 Padding.none (by decide)).2.1⟩

/-- C7: when capacity times the resolved stride overflows usize, the
construction fails with BufferSizeOverflow. The checked multiplication is
the first step of new, so the result is this error irrespective of the
zero size check and without the allocator ever being consulted. -/
theorem c7_overflow (T : TypeDesc) (cap : Nat) (padding : Padding)
    (h : USIZE_BOUND ≤ cap * resolve_padding T.size padding) :
    new T cap padding = Except.error Errors.BufferSizeOverflow := by
  simp only [new, checked_mul]
  rw [if_neg (Nat.not_lt.mpr h)]

/-- C7 witness: a two byte element at capacity 2 ^ 63 overflows the 64
bit multiplication exactly. -/
theorem c7_overflow_witness :
    new ⟨2, 2⟩ (2 ^ 63) Padding.none = Except.error Errors.BufferSizeOverflow :=
  c7_overflow ⟨2, 2⟩ (2 ^ 63) Padding.none (by decide)

/-- C10: release accounting read off the source. Dropping the Buffer
value alone releases the allocation zero times, not once, because the
crate defines no Drop impl for Buffer; and a run that calls data() twice
and drops the two returned Vec values releases the same allocation twice,
because Vec::from_raw_parts transfers ownership to each returned Vec. -/
theorem c10_dealloc_count :
    totalDeallocs [DropEvent.buffer] = 0 ∧
    totalDeallocs [DropEvent.rawPartsVec, DropEvent.rawPartsVec, DropEvent.buffer] = 2 := by
  decide

/-- The layout construction succeeds for any alignment the Rust compiler
can produce and any size below 2 ^ 64 that the alignment divides. -/
theorem layout_ok (align alloc k : Nat) (hk : k ≤ 63) (halign : align = 2 ^ k)
    (hdvd : align ∣ alloc) (hlt : alloc < USIZE_BOUND) :
    layout_from_size_align alloc align = Except.ok () := by
  subst halign
  have hd64 : (2 ^ k : Nat) ∣ USIZE_BOUND := by
    simp only [USIZE_BOUND]
    exact pow_dvd_pow 2 (by omega)
  have hpos : 0 < (2 : Nat) ^ k := Nat.pos_pow_of_pos k (by decide)
  have hsub : (2 ^ k : Nat) ∣ USIZE_BOUND - alloc := Nat.dvd_sub' hd64 hdvd
  have hle : alloc + 2 ^ k ≤ USIZE_BOUND := by
    have h1 : 0 < USIZE_BOUND - alloc := by omega
    have h2 := Nat.le_of_dvd h1 hsub
    omega
  unfold layout_from_size_align
  rw [is_power_of_two_pow k]
  rw [if_neg (by simp)]
  rw [if_neg (by omega)]

/-- The written span of a slot stays inside the allocation. -/
theorem slot_span_le (i cp ps sz : Nat) (hi : i < cp) (hsz : sz ≤ ps) :
    i * ps + sz ≤ cp * ps := by
  have h1 : (i + 1) * ps ≤ cp * ps := Nat.mul_le_mul_right _ (Nat.succ_le_of_lt hi)
  have h2 : i * ps + sz ≤ (i + 1) * ps := by
    rw [Nat.succ_mul]
    exact Nat.add_le_add_left hsz _
  exact Nat.le_trans h2 h1

/-- Indexing with default into a mapped range below its length. -/
theorem range_map_getD {α : Type} (n i : Nat) (f : Nat → α) (d : α) (hi : i < n) :
    ((List.range n).map f).getD i d = f i := by
  rw [List.getD_eq_getElem?_getD, List.getElem?_map, List.getElem?_range hi]
  rfl

/-- When the stored byte list has exactly data_size bytes and the size
product does not wrap, data() returns the whole backing memory. -/
theorem data_eq_mem (c : Buffer) (hlen : c.mem.length = c.cap * c.padded_size)
    (hlt : c.cap * c.padded_size < USIZE_BOUND) : c.data = c.mem := by
  unfold Buffer.data Buffer.data_size
  rw [Nat.mod_eq_of_lt hlt, ← hlen, List.take_length]

/-- Writing bytes inside a zero filled region splits it into a zero
prefix, the written bytes, and a zero tail. -/
theorem writeBytes_replicate (L off : Nat) (bs : List Nat)
    (hle : off + bs.length ≤ L) :
    writeBytes (List.replicate L 0) off bs =
      List.replicate off 0 ++ bs ++
      List.replicate (L - (off + bs.length)) 0 := by
  unfold writeBytes
  rw [List.take_replicate, List.drop_replicate]
  have hmin : min off L = off :=
    Nat.min_eq_left (Nat.le_trans (Nat.le_add_right off bs.length) hle)
  rw [hmin]

/-- Extracting the middle chunk of a three part concatenation. -/
theorem drop_take_middle (pre mid post : List Nat) :
    ((pre ++ mid ++ post).drop pre.length).take mid.length = mid := by
  rw [List.append_assoc, List.drop_left, List.take_left]

/-- Reading with default outside the middle chunk of a concatenation of
zeros, a chunk, and zeros gives zero. -/
theorem getD_outside_middle (pre mid post : List Nat) (k : Nat)
    (hpre : ∀ x ∈ pre, x = 0) (hpost : ∀ x ∈ post, x = 0)
    (hk : k < pre.length ∨ pre.length + mid.length ≤ k) :
    (pre ++ mid ++ post).getD k 0 = 0 := by
  rw [List.getD_eq_getElem?_getD, List.append_assoc]
  rcases hk with hk | hk
  · rw [List.getElem?_append_left hk, List.getElem?_eq_getElem hk]
    exact hpre _ (List.getElem_mem hk)
  · rw [List.getElem?_append_right (Nat.le_trans (Nat.le_add_right _ _) hk)]
    rw [List.getElem?_append_right (by omega)]
    cases hp : post[k - pre.length - mid.length]? with
    | none => rfl
    | some x => exact hpost x (List.getElem?_mem hp)

/-- C2 counterexample: for a two byte type at capacity 2 ^ 63 the size
computation overflows usize and Buffer::new fails with
BufferSizeOverflow, although the element size is positive and the
capacity is at least 1, so construction does not always succeed. -/
theorem c2_counterexample :
    0 < (2 : Nat) ∧ 1 ≤ 2 ^ 63 ∧
    Buffer.new ⟨2, 2⟩ (2 ^ 63) = Except.error Errors.BufferSizeOverflow :=
  ⟨by decide, Nat.one_le_two_pow, rfl⟩

/-- C2 (amended): for every type T with positive size and every capacity
of at least 1 whose byte total capacity * sizeof(T) fits in usize,
Buffer::new succeeds, with stride equal to sizeof(T) and total size equal
to capacity * sizeof(T); when that product overflows usize the
construction instead fails with BufferSizeOverflow. -/
theorem c2_create_props (T : TypeDesc) (cap : Nat) (hwf : T.wf)
    (hsz : 0 < T.size) (hcap : 1 ≤ cap) (hov : cap * T.size < USIZE_BOUND) :
    ∃ b, Buffer.new T cap = Except.ok b ∧
      b.padded_size = T.size ∧ b.data_size = cap * T.size ∧
      b.cap = cap ∧ b.size = T.size := by
  obtain ⟨⟨k, hk, halign⟩, hdvd⟩ := hwf
  have hpos : 0 < cap * T.size := Nat.mul_pos hcap hsz
  have hlay : layout_from_size_align (cap * T.size) T.align = Except.ok () :=
    layout_ok T.align (cap * T.size) k hk halign (Dvd.dvd.mul_left hdvd cap) hov
  refine ⟨⟨List.replicate (cap * T.size) 0, cap, T.size, T.size,
    (List.range cap).map (fun i => i * T.size)⟩, ?_, rfl, ?_, rfl, rfl⟩
  · have hrp : resolve_padding T.size Padding.none = T.size := rfl
    have hne : (cap * T.size == 0) = false := by
      simpa using Nat.pos_iff_ne_zero.mp hpos
    simp only [Buffer.new, newUnqualified, new, hrp, checked_mul]
    rw [if_pos hov]
    have hguard : alloc_guard (cap * T.size) = Except.ok (cap * T.size) := by
      simp [alloc_guard, USIZE_BYTES]
    show (match alloc_guard (cap * T.size) with
      | Except.error e => Except.error e
      | Except.ok alloc_size =>
          if (alloc_size == 0) = true then zero_buffer
          else buffer_from T.align cap T.size T.size alloc_size) = _
    rw [hguard]
    show (if ((cap * T.size) == 0) = true then zero_buffer
      else buffer_from T.align cap T.size T.size (cap * T.size)) = _
    rw [hne]
    simp only [Bool.false_eq_true, if_false]
    unfold buffer_from
    rw [hlay]
  · simp only [Buffer.data_size]
    exact Nat.mod_eq_of_lt hov

/-- C2 witness: one byte elements at capacity 2. -/
theorem c2_create_props_witness :
    ∃ b, Buffer.new ⟨1, 1⟩ 2 = Except.ok b ∧
      b.padded_size = 1 ∧ b.data_size = 2 * 1 ∧ b.cap = 2 ∧ b.size = 1 :=
  c2_create_props ⟨1, 1⟩ 2 ⟨⟨0, by decide, rfl⟩, ⟨1, rfl⟩⟩
    (by decide) (by decide) (by decide)

/-- C3: every successful Buffer::padded construction yields a stride that
equals max(requested, sizeof(T), 1). -/
theorem c3_padded_stride (T : TypeDesc) (cap requested : Nat) (b : Buffer)
    (h : Buffer.padded T cap requested = Except.ok b) :
    b.padded_size = max (max requested T.size) 1 :=
  (new_ok_inv T cap (Padding.padded requested) b h).2.2.1

/-- C3 witness: a 16 byte element padded to 64 yields stride 64. -/
theorem c3_padded_stride_witness :
    (Buffer.mk (List.replicate 64 0) 1 16 64 [0]).padded_size = max (max 64 16) 1 :=
  c3_padded_stride ⟨16, 8⟩ 1 64 (Buffer.mk (List.replicate 64 0) 1 16 64 [0]) rfl

/-- C8: every successfully constructed buffer exposes exactly capacity
slot byte views through buffers(), and each view has length exactly
sizeof(T), never the stride: padding bytes are excluded even when the
stride exceeds the element size. -/
theorem c8_slot_view_len (T : TypeDesc) (cap : Nat) (padding : Padding) (b : Buffer)
    (h : new T cap padding = Except.ok b) :
    b.buffers.length = cap ∧ ∀ s ∈ b.buffers, s.length = T.size := by
  obtain ⟨hcap, hsize, hps, hmem, hent, hlt, hpos⟩ := new_ok_inv T cap padding b h
  constructor
  · simp [Buffer.buffers, hcap]
  · intro s hs
    simp only [Buffer.buffers, List.mem_map, List.mem_range] at hs
    obtain ⟨i, hi, rfl⟩ := hs
    have hmemlen : b.mem.length = b.cap * b.padded_size := by
      rw [hmem, hcap, hps]
      simp
    have hle : b.size ≤ b.padded_size := by
      rw [hsize, hps]
      exact size_le_resolve T.size padding
    have hoff : i * b.padded_size + b.size ≤ b.cap * b.padded_size :=
      slot_span_le i b.cap b.padded_size b.size hi hle
    simp only [List.length_take, List.length_drop, hmemlen]
    rw [hsize] at hoff ⊢
    omega

/-- C8 witness: a 16 byte element padded to stride 64 at capacity 1
still exposes a 16 byte slot view. -/
theorem c8_slot_view_len_witness :
    (Buffer.mk (List.replicate 64 0) 1 16 64 [0]).buffers.length = 1 ∧
    ∀ s ∈ (Buffer.mk (List.replicate 64 0) 1 16 64 [0]).buffers, s.length = 16 :=
  c8_slot_view_len ⟨16, 8⟩ 1 (Padding.padded 64) _ rfl

/-- C9: structural invariants of every successfully constructed buffer:
the stride dominates the element size and is at least 1, the capacity is
at least 1, the total size equals capacity times stride and fits in usize
without wrapping (so data_size returns the exact allocated byte length),
and there are exactly capacity entries, entry i sitting at byte offset
i times the stride, strictly inside the allocation. -/
theorem c9_invariants (T : TypeDesc) (cap : Nat) (padding : Padding) (b : Buffer)
    (h : new T cap padding = Except.ok b) :
    T.size ≤ b.padded_size ∧ 1 ≤ b.padded_size ∧ 1 ≤ b.cap ∧
    b.cap * b.padded_size < USIZE_BOUND ∧
    b.data_size = b.cap * b.padded_size ∧
    b.mem.length = b.data_size ∧
    b.entries.length = b.cap ∧
    (∀ i, i < b.cap → b.entries.getD i 0 = i * b.padded_size ∧
      i * b.padded_size < b.data_size) := by
  obtain ⟨hcap, hsize, hps, hmem, hent, hlt, hpos⟩ := new_ok_inv T cap padding b h
  have hprod : b.cap * b.padded_size = cap * resolve_padding T.size padding := by
    rw [hcap, hps]
  have hltb : b.cap * b.padded_size < USIZE_BOUND := by rw [hprod]; exact hlt
  have hposb : 0 < b.cap * b.padded_size := by rw [hprod]; exact hpos
  have hnz := Nat.mul_ne_zero_iff.mp (Nat.pos_iff_ne_zero.mp hposb)
  have hds : b.data_size = b.cap * b.padded_size := Nat.mod_eq_of_lt hltb
  refine ⟨?_, ?_, ?_, hltb, hds, ?_, ?_, ?_⟩
  · rw [hps]
    exact size_le_resolve T.size padding
  · exact Nat.pos_of_ne_zero hnz.2
  · exact Nat.pos_of_ne_zero hnz.1
  · rw [hmem, hds, hprod]
    simp
  · rw [hent, hcap]
    simp
  · intro i hi
    constructor
    · rw [hent]
      have hi2 : i < cap := hcap ▸ hi
      rw [range_map_getD cap i _ 0 hi2, hps]
    · rw [hds]
      exact Nat.mul_lt_mul_of_lt_of_le hi (Nat.le_refl _) (Nat.pos_of_ne_zero hnz.2)

/-- C9 witness: a 16 byte element padded to stride 64 at capacity 1. -/
theorem c9_invariants_witness :
    1 ≤ (Buffer.mk (List.replicate 64 0) 1 16 64 [0]).cap ∧
    (Buffer.mk (List.replicate 64 0) 1 16 64 [0]).data_size = 64 ∧
    (Buffer.mk (List.replicate 64 0) 1 16 64 [0]).entries.getD 0 0 = 0 := by
  have h := c9_invariants ⟨16, 8⟩ 1 (Padding.padded 64)
    (Buffer.mk (List.replicate 64 0) 1 16 64 [0]) rfl
  refine ⟨h.2.2.1, ?_, ?_⟩
  · simpa using h.2.2.2.2.1
  · have h0 := (h.2.2.2.2.2.2.2 0 Nat.one_pos).1
    simp only [Nat.zero_mul] at h0
    exact h0

/-- C1: writing an element value through entry i of a freshly constructed
buffer makes its bytes visible byte for byte at offset i * stride of
data() and as slot i of buffers(), while every byte outside the written
element region, covering all other slots and all padding bytes, stays
zero. -/
theorem c1_write_visible (T : TypeDesc) (cap : Nat) (padding : Padding)
    (b : Buffer) (h : new T cap padding = Except.ok b) (i : Nat)
    (hi : i < cap) (bs : List Nat) (hbs : bs.length = T.size) :
    (((b.writeEntry i bs).data.drop (i * b.padded_size)).take T.size = bs) ∧
    ((b.writeEntry i bs).buffers.getD i [] = bs) ∧
    (∀ k, k < i * b.padded_size ∨ i * b.padded_size + T.size ≤ k →
      (b.writeEntry i bs).data.getD k 0 = 0) := by
  obtain ⟨hcap, hsize, hps, hmem, hent, hlt, hpos⟩ := new_ok_inv T cap padding b h
  have hib : i < b.cap := hcap ▸ hi
  have hmemb : b.mem = List.replicate (b.cap * b.padded_size) 0 := by
    rw [hmem, hcap, hps]
  have hltb : b.cap * b.padded_size < USIZE_BOUND := by
    rw [hcap, hps]
    exact hlt
  have hle : b.size ≤ b.padded_size := by
    rw [hsize, hps]
    exact size_le_resolve T.size padding
  have hoff : b.entries.getD i 0 = i * b.padded_size := by
    rw [hent, range_map_getD cap i _ 0 hi, hps]
  have hspan : i * b.padded_size + bs.length ≤ b.cap * b.padded_size := by
    rw [hbs, ← hsize]
    exact slot_span_le i b.cap b.padded_size b.size hib hle
  have hw : (b.writeEntry i bs).mem =
      List.replicate (i * b.padded_size) 0 ++ bs ++
      List.replicate (b.cap * b.padded_size - (i * b.padded_size + bs.length)) 0 := by
    show writeBytes b.mem (b.entries.getD i 0) bs = _
    rw [hoff, hmemb]
    exact writeBytes_replicate (b.cap * b.padded_size) (i * b.padded_size) bs hspan
  have hwlen : (b.writeEntry i bs).mem.length = b.cap * b.padded_size := by
    rw [hw]
    simp only [List.length_append, List.length_replicate]
    omega
  have hdata : (b.writeEntry i bs).data = (b.writeEntry i bs).mem :=
    data_eq_mem (b.writeEntry i bs) hwlen hltb
  have hprelen : (List.replicate (i * b.padded_size) 0).length = i * b.padded_size := by
    simp
  have hmid := drop_take_middle (List.replicate (i * b.padded_size) 0) bs
    (List.replicate (b.cap * b.padded_size - (i * b.padded_size + bs.length)) 0)
  rw [hprelen] at hmid
  refine ⟨?_, ?_, ?_⟩
  · rw [hdata, hw, ← hbs]
    exact hmid
  · show ((List.range b.cap).map
      (fun j => ((b.writeEntry i bs).mem.drop (j * b.padded_size)).take b.size)).getD i [] = bs
    rw [range_map_getD b.cap i _ [] hib]
    rw [hw, hsize, ← hbs]
    exact hmid
  · intro k hk
    rw [hdata, hw]
    apply getD_outside_middle
    · exact fun x hx => List.eq_of_mem_replicate hx
    · exact fun x hx => List.eq_of_mem_replicate hx
    · rw [hprelen, hbs]
      exact hk

/-- C1 witness, scenario C of the specification: one byte elements at
capacity 2 with requested stride 4, writing value 12 into slot 1, yields
data [0,0,0,0,12,0,0,0], with the written byte visible at offset 4 of
data() and as slot 1 of buffers(). -/
theorem c1_write_visible_witness :
    ((Buffer.mk (List.replicate 8 0) 2 1 4 [0, 4]).writeEntry 1 [12]).data
      = [0, 0, 0, 0, 12, 0, 0, 0] ∧
    (((Buffer.mk (List.replicate 8 0) 2 1 4 [0, 4]).writeEntry 1 [12]).data.drop
      (1 * (Buffer.mk (List.replicate 8 0) 2 1 4 [0, 4]).padded_size)).take 1 = [12] ∧
    ((Buffer.mk (List.replicate 8 0) 2 1 4 [0, 4]).writeEntry 1 [12]).buffers.getD 1 []
      = [12] := by
  have h := c1_write_visible ⟨1, 1⟩ 2 (Padding.padded 4)
    (Buffer.mk (List.replicate 8 0) 2 1 4 [0, 4]) rfl 1 (by decide) [12] rfl
  exact ⟨by decide, h.1, h.2.1⟩
